import Mathlib

/-!
Shallow embedding of the tile-rendering and tile-selection subsystem of the
`piped-mockup` repository (files `src/main.rs` and `src/tilemap.rs`).

Modelling conventions:
* Rust machine integers (`u8`, `u16`, `u32`, `usize`) are modelled as `Nat`.
  An explicit `% 2 ^ 32` (resp. `% 2 ^ 8`) is written wherever the source
  performs an `as u32` (resp. `as u8`) cast, and wherever a `u32` arithmetic
  operation can exceed `u32::MAX` (matching the two's-complement wrapping of
  release builds; debug builds would abort at exactly the same inputs, so the
  theorems below that exhibit wrap-around failures also witness failures of
  the corresponding claims under debug semantics, just with a different
  failure mode).  `u32` operations whose results are trivially below `2 ^ 32`
  (such as `quad_index % 8 * 16`) are left without the redundant reduction.
* `Vec<T>` is `List T`; a byte is also a `Nat` (its value range is irrelevant
  here: the layout code only inspects `bytes.len()`).
* A Rust panic (an `unwrap()` of `None`) is modelled by returning `none` from
  an `Option`-valued function.
* `Arc` identity (`Arc::ptr_eq`) is modelled by pairing a list with a numeric
  reference tag (`ArcVec`); two values are "identity equal" iff their tags
  coincide.  The GPU buffers are modelled by records carrying an allocation
  counter so that "the buffer was recreated" is observable, as the spec's
  test-harness recreation counter requires.
-/

/-- `TileCoords(pub u32, pub u32)` from `tilemap.rs`: a `(column, row)`
grid-cell address.  Field `c0` is the tuple position `.0`, `c1` is `.1`. -/
structure TileCoords where
  c0 : Nat
  c1 : Nat
deriving DecidableEq, Repr

/-- `TileInstance` from `tilemap.rs`: position (`x`, `y` in pixel-art pixels,
`u32`), source tile `id` (`u32`), palette row `pal` (`u8`), display `scale`
(`u8`) and `flags` (`u16`). -/
structure TileInstance where
  x : Nat
  y : Nat
  id : Nat
  pal : Nat
  scale : Nat
  flags : Nat
deriving DecidableEq, Repr

namespace TileInstance

/-- `TileInstance::get_tile_coords`: `TileCoords(self.x / 8, self.y / 8)`. -/
def get_tile_coords (t : TileInstance) : TileCoords :=
  ⟨t.x / 8, t.y / 8⟩

/-- `TileInstance::move_to_tile_coords`: `self.x = tile_coords.0 * 8;
self.y = tile_coords.1 * 8`.  The multiplications are `u32` multiplications,
hence the `% 2 ^ 32`. -/
def move_to_tile_coords (t : TileInstance) (tile_coords : TileCoords) : TileInstance :=
  { t with x := tile_coords.c0 * 8 % 2 ^ 32, y := tile_coords.c1 * 8 % 2 ^ 32 }

end TileInstance

/-- `GraphicsFile` from `main.rs`: a loaded tile-sheet file together with its
byte offset inside the shared graphics byte buffer. -/
structure GraphicsFile where
  path : String
  bytes : List Nat
  offset_in_all_bytes : Nat
deriving DecidableEq, Repr

namespace GraphicsFile

/-- The four `TileInstance`s pushed for one quad by the loop body of
`GraphicsFile::layout_all_tile_instances_from_file` (`main.rs`).
`quad_index` is the `u32` loop counter (always `< 2 ^ 32`). -/
def quadInstances (first_tile_id_of_file pal quad_index : Nat) : List TileInstance :=
  let quads_per_row := 8
  let quad_left_x := quad_index % quads_per_row * 16
  let quad_top_y := quad_index / quads_per_row * 16 % 2 ^ 32
  let first_tile_id_of_quad := (first_tile_id_of_file + quad_index * 4) % 2 ^ 32
  [ { x := quad_left_x, y := quad_top_y,
      id := first_tile_id_of_quad, pal := pal, scale := 1, flags := 0 },
    { x := quad_left_x + 8, y := quad_top_y,
      id := (first_tile_id_of_quad + 1) % 2 ^ 32, pal := pal, scale := 1, flags := 0 },
    { x := quad_left_x, y := (quad_top_y + 8) % 2 ^ 32,
      id := (first_tile_id_of_quad + 2) % 2 ^ 32, pal := pal, scale := 1, flags := 0 },
    { x := quad_left_x + 8, y := (quad_top_y + 8) % 2 ^ 32,
      id := (first_tile_id_of_quad + 3) % 2 ^ 32, pal := pal, scale := 1, flags := 0 } ]

/-- `GraphicsFile::layout_all_tile_instances_from_file` (`main.rs`): lays the
file's bytes out as 16×16 quads, 8 per row, four 8×8 `TileInstance`s per quad.
The `for quad_index in 0..(number_of_quads_in_this_file) as u32` loop is the
`flatMap` over `List.range`; the two `as u32` casts of the source
(`number_of_quads_in_this_file as u32` and
`(self.offset_in_all_bytes / bytes_per_tile) as u32`) are the two outer
`% 2 ^ 32` reductions, and `palette_line as u8` is the `% 2 ^ 8`. -/
def layout_all_tile_instances_from_file (f : GraphicsFile) (palette_line : Nat) :
    List TileInstance :=
  let pal := palette_line % 2 ^ 8
  let bits_per_pixel := 4
  let bits_per_tile := bits_per_pixel * 8 * 8
  let bytes_per_tile := bits_per_tile / 8
  let bytes_per_quad := bytes_per_tile * 4
  let number_of_quads_in_this_file := f.bytes.length / bytes_per_quad
  let first_tile_id_of_file := f.offset_in_all_bytes / bytes_per_tile % 2 ^ 32
  (List.range (number_of_quads_in_this_file % 2 ^ 32)).flatMap
    (quadInstances first_tile_id_of_file pal)

end GraphicsFile

/-- `PrivateMessage` from `tilemap.rs`. -/
inductive PrivateMessage where
  | CursorMovedOverTile (tile : TileCoords)
  | LeftButtonPressedInside
  | LeftButtonReleasedInside
  | CursorExited
deriving DecidableEq, Repr

/-- `PublicMessage` from `tilemap.rs`: raised when the user presses then
releases on the same tile. -/
inductive PublicMessage where
  | TileClicked (coords : TileCoords)
deriving DecidableEq, Repr

/-- The interaction state of `TilemapCanvasOverlay` (`tilemap.rs`).  The
`canvas::Cache` field is rendering-only (cleared by `request_redraw`) and
carries no interaction state, so it is not part of the embedding. -/
structure TilemapCanvasOverlay where
  tile_hovered : Option TileCoords
  tile_mouse_pressed_on : Option TileCoords
  brush_tile : Option TileCoords
deriving DecidableEq, Repr

/-- `TilemapCanvasOverlay::new`. -/
def TilemapCanvasOverlay.new : TilemapCanvasOverlay :=
  { tile_hovered := none, tile_mouse_pressed_on := none, brush_tile := none }

/-- `tilemap::Component`: its `TilemapProgram`'s tile-instance sequence plus
the overlay interaction state.  (The shared graphics byte buffer and the lazy
GPU pipeline handle inside `TilemapProgram` play no role in the interaction
logic and are modelled separately, see `TilemapShaderPipeline` below.) -/
structure Component where
  tile_instances : List TileInstance
  overlay : TilemapCanvasOverlay
deriving DecidableEq, Repr

namespace Component

/-- `tilemap::Component::update` (`tilemap.rs`): the press/release gesture
state machine.  Returns the new component state and the optional
`PublicMessage`. -/
def update (c : Component) (m : PrivateMessage) : Component × Option PublicMessage :=
  match m with
  | .CursorMovedOverTile tile =>
      ({ c with overlay := { c.overlay with tile_hovered := some tile } }, none)
  | .LeftButtonPressedInside =>
      ({ c with overlay :=
          { c.overlay with tile_mouse_pressed_on := c.overlay.tile_hovered } }, none)
  | .LeftButtonReleasedInside =>
      (c,
        match c.overlay.tile_mouse_pressed_on, c.overlay.tile_hovered with
        | some tile_mouse_pressed_on, some tile_hovered =>
            if tile_mouse_pressed_on = tile_hovered then
              some (.TileClicked tile_hovered)
            else
              none
        | _, _ => none)
  | .CursorExited =>
      ({ c with overlay :=
          { c.overlay with tile_mouse_pressed_on := none, tile_hovered := none } }, none)

/-- Feed a list of `PrivateMessage`s through `Component.update`, collecting
every emitted `PublicMessage` in order. -/
def run (c : Component) : List PrivateMessage → Component × List PublicMessage
  | [] => (c, [])
  | m :: ms =>
      let step := c.update m
      let rest := step.1.run ms
      (rest.1, step.2.toList ++ rest.2)

/-- `Component::set_tile_instances`. -/
def set_tile_instances (c : Component) (tile_instances : List TileInstance) : Component :=
  { c with tile_instances := tile_instances }

/-- `Component::get_tile_instances`. -/
def get_tile_instances (c : Component) : List TileInstance :=
  c.tile_instances

/-- `Component::set_brush`. -/
def set_brush (c : Component) (brush : Option TileCoords) : Component :=
  { c with overlay := { c.overlay with brush_tile := brush } }

/-- `Component::get_brush`. -/
def get_brush (c : Component) : Option TileCoords :=
  c.overlay.brush_tile

end Component

/-- The source-sequence lookup of the paint orchestration
(`main.rs`, `Message::FromDisplayedBlockLibrary` arm):
`.iter().find(|tile| tile.get_tile_coords() == brush)`. -/
def find_tile (src : List TileInstance) (brush : TileCoords) : Option TileInstance :=
  src.find? (fun tile => tile.get_tile_coords = brush)

/-- The destination rebuild of the paint orchestration (`main.rs`): map over
the current block-library sequence replacing every instance at
`clicked_tile_coords` by the moved clone and, when none matched, append the
clone.  The source records whether the map matched in a mutable `found` flag;
that flag equals `dest.any (tile coords = clicked)`. -/
def upsert_tile (dest : List TileInstance) (clicked_tile_coords : TileCoords)
    (clone : TileInstance) : List TileInstance :=
  let found := dest.any (fun tile => tile.get_tile_coords = clicked_tile_coords)
  let mapped := dest.map (fun tile =>
    if tile.get_tile_coords = clicked_tile_coords then clone else tile)
  if found then mapped else mapped ++ [clone]

/-- The full paint operation of `App::update` on a
`TileClicked(clicked_tile_coords)` from the block library (`main.rs`):
look the brush tile up in the source sequence (`.find(..).unwrap()` — the
`unwrap` panics when the lookup fails, modelled as `none`), clone it, move the
clone to the clicked coordinates, and upsert it into the destination
sequence. -/
def paint (src : List TileInstance) (brush : TileCoords)
    (dest : List TileInstance) (clicked_tile_coords : TileCoords) :
    Option (List TileInstance) :=
  match find_tile src brush with
  | none => none
  | some tile =>
      some (upsert_tile dest clicked_tile_coords
        (tile.move_to_tile_coords clicked_tile_coords))

/-- Sequential composition of paint operations starting from a destination
sequence; each step supplies its own source sequence, brush and clicked
coordinates.  A panicking step (`none`) aborts the whole run. -/
def paint_many (dest : List TileInstance) :
    List (List TileInstance × TileCoords × TileCoords) → Option (List TileInstance)
  | [] => some dest
  | (src, brush, clicked) :: ops =>
      match paint src brush dest clicked with
      | none => none
      | some dest2 => paint_many dest2 ops

/-- The palette-line change operation of `App::update`
(`Message::FromPaletteSelector` arm, `main.rs`): rebuild the displayed
sequence with `new_tile.pal = line as u8` on every instance. -/
def rewrite_palette_line (instances : List TileInstance) (line : Nat) :
    List TileInstance :=
  instances.map (fun tile => { tile with pal := line % 2 ^ 8 })

/-- An `Arc<Vec<TileInstance>>` value: the list together with a reference tag
standing for the allocation identity compared by `Arc::ptr_eq`. -/
structure ArcVec where
  ref : Nat
  data : List TileInstance
deriving DecidableEq, Repr

/-- A `wgpu::Buffer` holding tile instances: its contents plus an allocation
counter (`alloc_id`) that changes exactly when a new buffer is created, making
buffer recreation observable (the spec's test-harness recreation counter). -/
structure WgpuInstanceBuffer where
  alloc_id : Nat
  contents : List TileInstance
deriving DecidableEq, Repr

/-- The part of `TilemapShaderPipeline` (`tilemap.rs`) touched by
`write_tile_instances_if_needed`: the `Arc` recorded as uploaded and the
instance buffer.  `write_count` counts `queue.write_buffer` calls on the
instance buffer, so that "nothing is written" is observable. -/
structure TilemapShaderPipeline where
  tile_instances : ArcVec
  instance_buffer : WgpuInstanceBuffer
  write_count : Nat
deriving DecidableEq, Repr

namespace TilemapShaderPipeline

/-- `TilemapShaderPipeline::write_tile_instances_if_needed` (`tilemap.rs`):
if the incoming `Arc` is pointer-equal to the recorded one, do nothing; else
if the lengths differ, create a fresh instance buffer from the incoming data
and record the incoming `Arc`; else overwrite the existing buffer's contents
in place (`queue.write_buffer`), leaving the recorded `Arc` unchanged. -/
def write_tile_instances_if_needed (s : TilemapShaderPipeline)
    (incoming : ArcVec) : TilemapShaderPipeline :=
  if s.tile_instances.ref = incoming.ref then
    s
  else if s.tile_instances.data.length ≠ incoming.data.length then
    { s with
      instance_buffer :=
        { alloc_id := s.instance_buffer.alloc_id + 1, contents := incoming.data },
      tile_instances := incoming }
  else
    { s with
      instance_buffer := { s.instance_buffer with contents := incoming.data },
      write_count := s.write_count + 1 }

end TilemapShaderPipeline

/-- The part of `App` (`main.rs`) manipulated by the
`Message::GraphicsFileLoaded` arm: the shared graphics byte buffer and the
list of loaded files. -/
structure AppFiles where
  all_graphics_bytes : List Nat
  graphics_files : List GraphicsFile
deriving DecidableEq, Repr

namespace AppFiles

/-- The initial `App` state (`App::new`): no bytes, no files. -/
def new : AppFiles :=
  { all_graphics_bytes := [], graphics_files := [] }

/-- The `Message::GraphicsFileLoaded(Some((path, bytes)))` arm of
`App::update` (`main.rs`), restricted to the fields of `AppFiles`: build the
`GraphicsFile` record with `offset_in_all_bytes` equal to the shared buffer's
current length, then append the bytes to the shared buffer and push the
record.  (The arm also creates display components, which hold no file/offset
state.) -/
def graphics_file_loaded (s : AppFiles) (path : String) (bytes : List Nat) :
    AppFiles :=
  let file : GraphicsFile :=
    { path := path, bytes := bytes,
      offset_in_all_bytes := s.all_graphics_bytes.length }
  { all_graphics_bytes := s.all_graphics_bytes ++ bytes,
    graphics_files := s.graphics_files ++ [file] }

/-- Process a sequence of load completions. -/
def load_all (s : AppFiles) : List (String × List Nat) → AppFiles
  | [] => s
  | (path, bytes) :: rest => (s.graphics_file_loaded path bytes).load_all rest

end AppFiles

/-- C2: processing `LeftButtonReleasedInside` emits `TileClicked t` iff both
`pressed_on` and `hovered` are `some` of the same tile `t`; in every other
case no event is emitted, and `LeftButtonPressedInside` alone never emits an
event. -/
theorem released_emits_click_iff (c : Component) (t : TileCoords) :
    ((c.update .LeftButtonReleasedInside).2 = some (.TileClicked t) ↔
      c.overlay.tile_mouse_pressed_on = some t ∧
        c.overlay.tile_hovered = some t) ∧
    (c.update .LeftButtonPressedInside).2 = none := by
  refine ⟨?_, rfl⟩
  rcases hp : c.overlay.tile_mouse_pressed_on with _ | p <;>
    rcases hh : c.overlay.tile_hovered with _ | h <;>
      simp [Component.update, hp, hh]
  rintro rfl
  rfl

/-- C3: `CursorExited` clears both `hovered` and `pressed_on` and emits no
event; consequently the sequence "hover tile (0,0), press, cursor exit,
re-enter moving over tile (0,0), release" emits zero events. -/
theorem cursor_exited_clears_press_state (c : Component) :
    ((c.update .CursorExited).1.overlay.tile_hovered = none ∧
      (c.update .CursorExited).1.overlay.tile_mouse_pressed_on = none ∧
      (c.update .CursorExited).2 = none) ∧
    (c.run [.CursorMovedOverTile ⟨0, 0⟩, .LeftButtonPressedInside, .CursorExited,
        .CursorMovedOverTile ⟨0, 0⟩, .LeftButtonReleasedInside]).2 = [] := by
  exact ⟨⟨rfl, rfl, rfl⟩, rfl⟩

/-- C10: a release does not clear `pressed_on`, so hover over `t`, press,
release, release (with no move or exit in between) emits `TileClicked t`
twice. -/
theorem two_releases_emit_two_clicks (c : Component) (t : TileCoords) :
    (c.run [.CursorMovedOverTile t, .LeftButtonPressedInside,
        .LeftButtonReleasedInside, .LeftButtonReleasedInside]).2 =
      [.TileClicked t, .TileClicked t] := by
  simp [Component.run, Component.update]

/-- C7: the palette-line change rewrites only the `pal` field: the sequence
keeps its length, and the instance at every index keeps its `x`, `y`, `id`,
`scale` and `flags` while its `pal` becomes the selected line `L` (selected
palette lines range over `[0, 16)`). -/
theorem rewrite_palette_line_only_pal (instances : List TileInstance) (L : Nat)
    (hL : L < 16) :
    (rewrite_palette_line instances L).length = instances.length ∧
    ∀ (i : Nat) (t : TileInstance), instances[i]? = some t →
      (rewrite_palette_line instances L)[i]? =
        some (TileInstance.mk t.x t.y t.id L t.scale t.flags) := by
  have hmod : L % 2 ^ 8 = L := Nat.mod_eq_of_lt (by omega)
  refine ⟨by simp [rewrite_palette_line], ?_⟩
  intro i t ht
  simp [rewrite_palette_line, List.getElem?_map, ht, hmod]
  omega

/-- Witness for `rewrite_palette_line_only_pal` at a concrete sequence and
line. -/
theorem rewrite_palette_line_only_pal_witness :
    (rewrite_palette_line [⟨8, 16, 7, 2, 1, 0⟩] 5).length = 1 ∧
    (rewrite_palette_line [⟨8, 16, 7, 2, 1, 0⟩] 5)[0]? =
      some ⟨8, 16, 7, 5, 1, 0⟩ := by
  have h := rewrite_palette_line_only_pal [⟨8, 16, 7, 2, 1, 0⟩] 5 (by decide)
  exact ⟨h.1, h.2 0 ⟨8, 16, 7, 2, 1, 0⟩ rfl⟩

namespace TilemapShaderPipeline

lemma write_ref_eq (s : TilemapShaderPipeline) (a : ArcVec)
    (h : s.tile_instances.ref = a.ref) :
    s.write_tile_instances_if_needed a = s := by
  simp [write_tile_instances_if_needed, h]

lemma write_same_len (s : TilemapShaderPipeline) (a : ArcVec)
    (h : s.tile_instances.ref ≠ a.ref)
    (hl : s.tile_instances.data.length = a.data.length) :
    s.write_tile_instances_if_needed a =
      { s with
        instance_buffer := { s.instance_buffer with contents := a.data },
        write_count := s.write_count + 1 } := by
  simp [write_tile_instances_if_needed, h, hl]

lemma write_diff_len (s : TilemapShaderPipeline) (a : ArcVec)
    (h : s.tile_instances.ref ≠ a.ref)
    (hl : s.tile_instances.data.length ≠ a.data.length) :
    s.write_tile_instances_if_needed a =
      { tile_instances := a,
        instance_buffer :=
          { alloc_id := s.instance_buffer.alloc_id + 1, contents := a.data },
        write_count := s.write_count } := by
  simp [write_tile_instances_if_needed, h, hl]

lemma iterate_same_len (s : TilemapShaderPipeline) (a : ArcVec)
    (h : s.tile_instances.ref ≠ a.ref)
    (hl : s.tile_instances.data.length = a.data.length) (n : Nat) :
    ((fun t => t.write_tile_instances_if_needed a)^[n] s).tile_instances =
        s.tile_instances ∧
    ((fun t => t.write_tile_instances_if_needed a)^[n] s).instance_buffer.alloc_id =
        s.instance_buffer.alloc_id := by
  induction n with
  | zero => exact ⟨rfl, rfl⟩
  | succ n ih =>
      rw [Function.iterate_succ_apply']
      rw [write_same_len _ a (by rw [ih.1]; exact h) (by rw [ih.1]; exact hl)]
      exact ⟨ih.1, ih.2⟩

lemma iterate_fixed (s : TilemapShaderPipeline) (a : ArcVec)
    (h : s.tile_instances.ref = a.ref) (n : Nat) :
    (fun t => t.write_tile_instances_if_needed a)^[n] s = s := by
  induction n with
  | zero => rfl
  | succ n ih => rw [Function.iterate_succ_apply', ih, write_ref_eq _ _ h]

end TilemapShaderPipeline

/-- C8: the per-frame tile-instance buffer policy.  If the incoming sequence
is identity-equal (same `Arc`) to the recorded one, the pipeline state is
untouched (nothing written, nothing recreated).  Otherwise, with equal
lengths, only the buffer contents are overwritten in place (one write, same
allocation, the record unchanged); with different lengths, the buffer is
recreated once, sized for (holding exactly) the new sequence, and the new
sequence is recorded.  Repeatedly presenting the same equal-length
replacement never changes the allocation; after a length change, one
recreation happens and re-presenting the same sequence is a no-op. -/
theorem write_tile_instances_policy (s : TilemapShaderPipeline) (a : ArcVec) :
    (s.tile_instances.ref = a.ref → s.write_tile_instances_if_needed a = s) ∧
    (s.tile_instances.ref ≠ a.ref →
      s.tile_instances.data.length = a.data.length →
      s.write_tile_instances_if_needed a =
        { s with
          instance_buffer := { s.instance_buffer with contents := a.data },
          write_count := s.write_count + 1 }) ∧
    (s.tile_instances.ref ≠ a.ref →
      s.tile_instances.data.length ≠ a.data.length →
      s.write_tile_instances_if_needed a =
        { tile_instances := a,
          instance_buffer :=
            { alloc_id := s.instance_buffer.alloc_id + 1, contents := a.data },
          write_count := s.write_count }) ∧
    (s.tile_instances.ref ≠ a.ref →
      s.tile_instances.data.length = a.data.length → ∀ n : Nat,
      ((fun t => t.write_tile_instances_if_needed a)^[n] s).instance_buffer.alloc_id =
        s.instance_buffer.alloc_id) ∧
    (s.tile_instances.ref ≠ a.ref →
      s.tile_instances.data.length ≠ a.data.length → ∀ n : Nat,
      ((fun t => t.write_tile_instances_if_needed a)^[n + 1] s).instance_buffer.alloc_id =
        s.instance_buffer.alloc_id + 1) := by
  refine ⟨TilemapShaderPipeline.write_ref_eq s a,
    TilemapShaderPipeline.write_same_len s a,
    TilemapShaderPipeline.write_diff_len s a,
    fun h hl n => (TilemapShaderPipeline.iterate_same_len s a h hl n).2,
    fun h hl n => ?_⟩
  rw [Function.iterate_succ_apply, TilemapShaderPipeline.write_diff_len s a h hl,
    TilemapShaderPipeline.iterate_fixed _ a rfl n]

/-- Witness for `write_tile_instances_policy` at concrete states: a no-op on
an identical `Arc`, an in-place overwrite on an equal-length replacement
(iterated: the allocation survives three frames), and a single recreation on
a length change. -/
theorem write_tile_instances_policy_witness :
    (TilemapShaderPipeline.write_tile_instances_if_needed
        ⟨⟨0, []⟩, ⟨5, []⟩, 0⟩ ⟨0, []⟩ = ⟨⟨0, []⟩, ⟨5, []⟩, 0⟩) ∧
    (TilemapShaderPipeline.write_tile_instances_if_needed
        ⟨⟨0, [⟨1, 2, 3, 4, 1, 0⟩]⟩, ⟨5, [⟨1, 2, 3, 4, 1, 0⟩]⟩, 0⟩
        ⟨1, [⟨9, 9, 9, 9, 1, 0⟩]⟩ =
      ⟨⟨0, [⟨1, 2, 3, 4, 1, 0⟩]⟩, ⟨5, [⟨9, 9, 9, 9, 1, 0⟩]⟩, 1⟩) ∧
    (((fun t => TilemapShaderPipeline.write_tile_instances_if_needed t
        ⟨1, [⟨9, 9, 9, 9, 1, 0⟩]⟩)^[3]
        ⟨⟨0, [⟨1, 2, 3, 4, 1, 0⟩]⟩, ⟨5, [⟨1, 2, 3, 4, 1, 0⟩]⟩, 0⟩).instance_buffer.alloc_id
      = 5) ∧
    (((fun t => TilemapShaderPipeline.write_tile_instances_if_needed t
        ⟨1, [⟨9, 9, 9, 9, 1, 0⟩, ⟨7, 7, 7, 7, 1, 0⟩]⟩)^[4]
        ⟨⟨0, [⟨1, 2, 3, 4, 1, 0⟩]⟩, ⟨5, [⟨1, 2, 3, 4, 1, 0⟩]⟩, 0⟩).instance_buffer.alloc_id
      = 6) := by
  refine ⟨(write_tile_instances_policy ⟨⟨0, []⟩, ⟨5, []⟩, 0⟩ ⟨0, []⟩).1 rfl,
    (write_tile_instances_policy _ _).2.1 (by decide) (by decide),
    (write_tile_instances_policy _ _).2.2.2.1 (by decide) (by decide) 3,
    (write_tile_instances_policy _ _).2.2.2.2 (by decide) (by decide) 3⟩

/-- The offset bookkeeping invariant of the shared graphics byte buffer: the
buffer is the concatenation of the loaded files' bytes, and every file's
recorded offset is the total length of the bytes of the files loaded before
it. -/
def offsets_consistent (s : AppFiles) : Prop :=
  s.all_graphics_bytes = (s.graphics_files.map GraphicsFile.bytes).flatten ∧
  ∀ (i : Nat) (f : GraphicsFile), s.graphics_files[i]? = some f →
    f.offset_in_all_bytes =
      ((s.graphics_files.take i).map (fun g => g.bytes.length)).sum

lemma offsets_consistent_new : offsets_consistent AppFiles.new := by
  refine ⟨rfl, fun i f hf => ?_⟩
  simp [AppFiles.new] at hf

lemma offsets_consistent_loaded (s : AppFiles) (p : String) (b : List Nat)
    (h : offsets_consistent s) :
    offsets_consistent (s.graphics_file_loaded p b) := by
  obtain ⟨hflat, hoff⟩ := h
  constructor
  · simp [AppFiles.graphics_file_loaded, hflat]
  · intro i f hf
    simp only [AppFiles.graphics_file_loaded] at hf ⊢
    by_cases hi : i < s.graphics_files.length
    · rw [List.getElem?_append_left hi] at hf
      rw [List.take_append_of_le_length (Nat.le_of_lt hi)]
      exact hoff i f hf
    · have hle : s.graphics_files.length ≤ i := Nat.le_of_not_lt hi
      rw [List.getElem?_append_right hle] at hf
      rcases hd : i - s.graphics_files.length with _ | k
      · rw [hd] at hf
        have hi' : i = s.graphics_files.length := by omega
        cases hf
        subst hi'
        rw [List.take_left]
        rw [hflat, List.length_flatten, List.map_map]
        rfl
      · rw [hd] at hf
        simp at hf
  

lemma offsets_consistent_load_all (loads : List (String × List Nat))
    (s : AppFiles) (h : offsets_consistent s) :
    offsets_consistent (s.load_all loads) := by
  induction loads generalizing s with
  | nil => exact h
  | cons op rest ih =>
      obtain ⟨p, b⟩ := op
      exact ih _ (offsets_consistent_loaded s p b h)

lemma load_all_files_extend (more : List (String × List Nat)) (s : AppFiles) :
    ∃ r, (s.load_all more).graphics_files = s.graphics_files ++ r := by
  induction more generalizing s with
  | nil => exact ⟨[], by simp [AppFiles.load_all]⟩
  | cons op rest ih =>
      obtain ⟨p, b⟩ := op
      obtain ⟨r, hr⟩ := ih (s.graphics_file_loaded p b)
      refine ⟨[⟨p, b, s.all_graphics_bytes.length⟩] ++ r, ?_⟩
      rw [AppFiles.load_all, hr]
      simp [AppFiles.graphics_file_loaded]

/-- C9: starting from the fresh `App`, after any sequence of graphics-file
load completions the shared byte buffer is exactly the concatenation of the
loaded files' bytes, every file's recorded offset equals the buffer length
immediately before its bytes were appended (the total length of its
predecessors' bytes), consecutive offsets grow by exactly the predecessor's
byte length, and further loads never revise the already-recorded files. -/
theorem graphics_offsets_invariant (loads : List (String × List Nat)) :
    ((AppFiles.new.load_all loads).all_graphics_bytes =
      ((AppFiles.new.load_all loads).graphics_files.map GraphicsFile.bytes).flatten) ∧
    (∀ (i : Nat) (f : GraphicsFile),
      (AppFiles.new.load_all loads).graphics_files[i]? = some f →
      f.offset_in_all_bytes =
        (((AppFiles.new.load_all loads).graphics_files.take i).map
          (fun g => g.bytes.length)).sum) ∧
    (∀ (i : Nat) (f g : GraphicsFile),
      (AppFiles.new.load_all loads).graphics_files[i]? = some f →
      (AppFiles.new.load_all loads).graphics_files[i + 1]? = some g →
      g.offset_in_all_bytes = f.offset_in_all_bytes + f.bytes.length) ∧
    (∀ more : List (String × List Nat),
      ((AppFiles.new.load_all loads).load_all more).graphics_files.take
          (AppFiles.new.load_all loads).graphics_files.length =
        (AppFiles.new.load_all loads).graphics_files) := by
  obtain ⟨hflat, hoff⟩ :=
    offsets_consistent_load_all loads AppFiles.new offsets_consistent_new
  refine ⟨hflat, hoff, fun i f g hf hg => ?_, fun more => ?_⟩
  · have h1 := hoff i f hf
    have h2 := hoff (i + 1) g hg
    rw [List.take_succ, hf] at h2
    simp only [Option.toList_some, List.map_append, List.sum_append,
      List.map_cons, List.map_nil, List.sum_cons, List.sum_nil] at h2
    omega
  · obtain ⟨r, hr⟩ := load_all_files_extend more (AppFiles.new.load_all loads)
    rw [hr, List.take_left]

/-- Witness for `graphics_offsets_invariant`: after loading a 3-byte file and
then a 2-byte file, the second file's recorded offset is 3, the length of its
predecessor. -/
theorem graphics_offsets_invariant_witness :
    (AppFiles.new.load_all [("a", [0, 1, 2]), ("b", [3, 4])]).graphics_files[1]? =
      some ⟨"b", [3, 4], 3⟩ ∧
    (3 : Nat) =
      (((AppFiles.new.load_all [("a", [0, 1, 2]), ("b", [3, 4])]).graphics_files.take 1).map
        (fun g => g.bytes.length)).sum := by
  have h := (graphics_offsets_invariant [("a", [0, 1, 2]), ("b", [3, 4])]).2.1 1
    ⟨"b", [3, 4], 3⟩ rfl
  exact ⟨rfl, h⟩

lemma get_coords_move_to (t : TileInstance) (c : TileCoords)
    (h0 : c.c0 < 2 ^ 29) (h1 : c.c1 < 2 ^ 29) :
    (t.move_to_tile_coords c).get_tile_coords = c := by
  obtain ⟨a, b⟩ := c
  simp only [TileInstance.move_to_tile_coords, TileInstance.get_tile_coords,
    TileCoords.mk.injEq]
  simp only at h0 h1
  constructor <;> omega

lemma upsert_map_of_found (dest : List TileInstance) (D : TileCoords)
    (c : TileInstance)
    (hfound : dest.any (fun tile => tile.get_tile_coords = D)) :
    upsert_tile dest D c =
      dest.map (fun tile => if tile.get_tile_coords = D then c else tile) := by
  simp only [upsert_tile, hfound, if_true]

lemma upsert_append_of_not_found (dest : List TileInstance) (D : TileCoords)
    (c : TileInstance)
    (hfound : ¬ dest.any (fun tile => tile.get_tile_coords = D)) :
    upsert_tile dest D c = dest ++ [c] := by
  have hnone : ∀ tile ∈ dest, ¬ tile.get_tile_coords = D := by
    intro tile ht hcoords
    exact hfound (List.any_eq_true.2 ⟨tile, ht, by simp [hcoords]⟩)
  simp only [upsert_tile]
  rw [if_neg (by simpa using hfound)]
  congr 1
  rw [List.map_congr_left fun tile ht => if_neg (hnone tile ht)]
  simp

lemma upsert_tile_idem (dest : List TileInstance) (D : TileCoords)
    (c : TileInstance) (hc : c.get_tile_coords = D) :
    upsert_tile (upsert_tile dest D c) D c = upsert_tile dest D c := by
  by_cases hfound : dest.any (fun tile => tile.get_tile_coords = D)
  · rw [upsert_map_of_found dest D c hfound]
    have hfound2 : (dest.map fun tile =>
        if tile.get_tile_coords = D then c else tile).any
          (fun tile => tile.get_tile_coords = D) := by
      obtain ⟨tile, ht, hcoords⟩ := List.any_eq_true.1 hfound
      refine List.any_eq_true.2 ⟨c, ?_, by simp [hc]⟩
      refine List.mem_map.2 ⟨tile, ht, ?_⟩
      rw [if_pos (by simpa using hcoords)]
    rw [upsert_map_of_found _ D c hfound2, List.map_map]
    refine List.map_congr_left fun tile _ => ?_
    by_cases htile : tile.get_tile_coords = D <;> simp [htile, hc]
  · rw [upsert_append_of_not_found dest D c hfound]
    have hfound2 : (dest ++ [c]).any (fun tile => tile.get_tile_coords = D) := by
      refine List.any_eq_true.2 ⟨c, by simp, by simp [hc]⟩
    rw [upsert_map_of_found _ D c hfound2, List.map_append]
    have hnone : ∀ tile ∈ dest, ¬ tile.get_tile_coords = D := by
      intro tile ht hcoords
      exact hfound (List.any_eq_true.2 ⟨tile, ht, by simp [hcoords]⟩)
    rw [List.map_congr_left fun tile ht => if_neg (hnone tile ht)]
    simp [hc]

/-- C4 (amended with the `2 ^ 29` coordinate bound, under which the moved
clone's derived coordinates equal the destination): painting the same brush
tile from the same source sequence onto the same destination coordinate a
second time returns the destination sequence unchanged. -/
theorem paint_upsert_idempotent (src : List TileInstance) (B D : TileCoords)
    (dest d1 : List TileInstance)
    (hD0 : D.c0 < 2 ^ 29) (hD1 : D.c1 < 2 ^ 29)
    (h1 : paint src B dest D = some d1) :
    paint src B d1 D = some d1 := by
  unfold paint at h1 ⊢
  cases hf : find_tile src B with
  | none => rw [hf] at h1; cases h1
  | some t =>
      rw [hf] at h1
      cases h1
      exact congrArg some
        (upsert_tile_idem dest D _ (get_coords_move_to t D hD0 hD1))

/-- Witness for `paint_upsert_idempotent`: painting tile (0,0) onto cell
(1,1) twice leaves the single-element destination of the first paint
unchanged. -/
theorem paint_upsert_idempotent_witness :
    paint [⟨0, 0, 5, 2, 1, 0⟩] ⟨0, 0⟩ [] ⟨1, 1⟩ = some [⟨8, 8, 5, 2, 1, 0⟩] ∧
    paint [⟨0, 0, 5, 2, 1, 0⟩] ⟨0, 0⟩ [⟨8, 8, 5, 2, 1, 0⟩] ⟨1, 1⟩ =
      some [⟨8, 8, 5, 2, 1, 0⟩] := by
  refine ⟨by decide, ?_⟩
  exact paint_upsert_idempotent [⟨0, 0, 5, 2, 1, 0⟩] ⟨0, 0⟩ ⟨1, 1⟩ []
    [⟨8, 8, 5, 2, 1, 0⟩] (by decide) (by decide) (by decide)

/-- Counterexample to C4 as stated: at the destination coordinate
`(2 ^ 29, 0)` the `u32` pixel position of the moved clone wraps around
(`2 ^ 29 * 8 = 2 ^ 32 ≡ 0`), so its derived coordinates miss the upsert key
and a second identical paint appends a duplicate instead of replacing. -/
theorem paint_upsert_idempotent_cex :
    paint [⟨0, 0, 5, 2, 1, 0⟩] ⟨0, 0⟩ [] ⟨2 ^ 29, 0⟩ =
      some [⟨0, 0, 5, 2, 1, 0⟩] ∧
    paint [⟨0, 0, 5, 2, 1, 0⟩] ⟨0, 0⟩ [⟨0, 0, 5, 2, 1, 0⟩] ⟨2 ^ 29, 0⟩ =
      some [⟨0, 0, 5, 2, 1, 0⟩, ⟨0, 0, 5, 2, 1, 0⟩] ∧
    ([⟨0, 0, 5, 2, 1, 0⟩, ⟨0, 0, 5, 2, 1, 0⟩] : List TileInstance) ≠
      [⟨0, 0, 5, 2, 1, 0⟩] := by
  refine ⟨by decide, by decide, by decide⟩

lemma upsert_tile_nodup (dest : List TileInstance) (D : TileCoords)
    (c : TileInstance) (hc : c.get_tile_coords = D)
    (h : (dest.map TileInstance.get_tile_coords).Nodup) :
    ((upsert_tile dest D c).map TileInstance.get_tile_coords).Nodup := by
  by_cases hfound : dest.any (fun tile => tile.get_tile_coords = D)
  · rw [upsert_map_of_found dest D c hfound, List.map_map]
    have heq : (dest.map (TileInstance.get_tile_coords ∘ fun tile =>
        if tile.get_tile_coords = D then c else tile)) =
        dest.map TileInstance.get_tile_coords := by
      refine List.map_congr_left fun tile _ => ?_
      by_cases htile : tile.get_tile_coords = D <;> simp [htile, hc]
    rw [heq]
    exact h
  · rw [upsert_append_of_not_found dest D c hfound, List.map_append]
    have hnotmem : D ∉ dest.map TileInstance.get_tile_coords := by
      intro hmem
      obtain ⟨tile, ht, hcoords⟩ := List.mem_map.1 hmem
      exact hfound (List.any_eq_true.2 ⟨tile, ht, by simp [hcoords]⟩)
    simp only [List.map_cons, List.map_nil, hc]
    rw [List.nodup_append]
    exact ⟨h, List.nodup_singleton D, by simpa using hnotmem⟩

lemma paint_many_nodup_aux (ops : List (List TileInstance × TileCoords × TileCoords)) :
    ∀ d0 dest : List TileInstance,
    (∀ op ∈ ops, op.2.2.c0 < 2 ^ 29 ∧ op.2.2.c1 < 2 ^ 29) →
    (d0.map TileInstance.get_tile_coords).Nodup →
    paint_many d0 ops = some dest →
    (dest.map TileInstance.get_tile_coords).Nodup := by
  induction ops with
  | nil =>
      intro d0 dest _ h hp
      cases hp
      exact h
  | cons op rest ih =>
      intro d0 dest hb h hp
      obtain ⟨src, brush, clicked⟩ := op
      rw [paint_many] at hp
      cases hpaint : paint src brush d0 clicked with
      | none => rw [hpaint] at hp; cases hp
      | some d1 =>
          rw [hpaint] at hp
          have hb0 := hb _ (List.mem_cons_self _ _)
          have hd1 : (d1.map TileInstance.get_tile_coords).Nodup := by
            unfold paint at hpaint
            cases hf : find_tile src brush with
            | none => rw [hf] at hpaint; cases hpaint
            | some tile =>
                rw [hf] at hpaint
                cases hpaint
                exact upsert_tile_nodup d0 clicked _
                  (get_coords_move_to tile clicked hb0.1 hb0.2) h
          exact ih d1 dest (fun op hop => hb _ (List.mem_cons_of_mem _ hop)) hd1 hp

/-- C5 (amended with the `2 ^ 29` coordinate bound on every painted
destination coordinate): starting from the empty block-library sequence, any
finite run of paint operations keeps the derived `TileCoords` of the
destination sequence pairwise distinct. -/
theorem paint_many_preserves_unique_coords
    (ops : List (List TileInstance × TileCoords × TileCoords))
    (dest : List TileInstance)
    (hb : ∀ op ∈ ops, op.2.2.c0 < 2 ^ 29 ∧ op.2.2.c1 < 2 ^ 29)
    (h : paint_many [] ops = some dest) :
    (dest.map TileInstance.get_tile_coords).Nodup :=
  paint_many_nodup_aux ops [] dest hb (by simp) h

/-- Witness for `paint_many_preserves_unique_coords`: two paints of the same
brush onto cells (1,1) then (1,1) again leave one instance with distinct
(trivially) coordinates. -/
theorem paint_many_preserves_unique_coords_witness :
    paint_many []
      [([⟨0, 0, 5, 2, 1, 0⟩], ⟨0, 0⟩, ⟨1, 1⟩),
       ([⟨0, 0, 5, 2, 1, 0⟩], ⟨0, 0⟩, ⟨2, 0⟩)] =
      some [⟨8, 8, 5, 2, 1, 0⟩, ⟨16, 0, 5, 2, 1, 0⟩] ∧
    (([⟨8, 8, 5, 2, 1, 0⟩, ⟨16, 0, 5, 2, 1, 0⟩] : List TileInstance).map
      TileInstance.get_tile_coords).Nodup := by
  refine ⟨by decide, ?_⟩
  exact paint_many_preserves_unique_coords
    [([⟨0, 0, 5, 2, 1, 0⟩], ⟨0, 0⟩, ⟨1, 1⟩),
     ([⟨0, 0, 5, 2, 1, 0⟩], ⟨0, 0⟩, ⟨2, 0⟩)]
    [⟨8, 8, 5, 2, 1, 0⟩, ⟨16, 0, 5, 2, 1, 0⟩] (by decide) (by decide)

/-- Counterexample to C5 as stated: painting twice onto the coordinate
`(2 ^ 29, 0)` (whose pixel position wraps around `u32` to 0) makes the
destination hold two instances with equal derived coordinates `(0, 0)`. -/
theorem paint_many_preserves_unique_coords_cex :
    paint_many []
      [([⟨0, 0, 5, 2, 1, 0⟩], ⟨0, 0⟩, ⟨2 ^ 29, 0⟩),
       ([⟨0, 0, 5, 2, 1, 0⟩], ⟨0, 0⟩, ⟨2 ^ 29, 0⟩)] =
      some [⟨0, 0, 5, 2, 1, 0⟩, ⟨0, 0, 5, 2, 1, 0⟩] ∧
    ¬ (([⟨0, 0, 5, 2, 1, 0⟩, ⟨0, 0, 5, 2, 1, 0⟩] : List TileInstance).map
      TileInstance.get_tile_coords).Nodup := by
  refine ⟨by decide, by decide⟩

/-- C6 (amended): when the brush coordinate has no matching instance in the
source sequence, the paint operation is not a silent no-op — the source's
`.find(..).unwrap()` panics, modelled here as producing no result. -/
theorem paint_missing_brush_panics (src : List TileInstance) (B : TileCoords)
    (dest : List TileInstance) (D : TileCoords)
    (h : find_tile src B = none) :
    paint src B dest D = none := by
  unfold paint
  rw [h]

/-- Witness for `paint_missing_brush_panics` at a concrete input. -/
theorem paint_missing_brush_panics_witness :
    paint [⟨64, 0, 5, 2, 1, 0⟩] ⟨0, 0⟩ [] ⟨1, 1⟩ = none :=
  paint_missing_brush_panics [⟨64, 0, 5, 2, 1, 0⟩] ⟨0, 0⟩ [] ⟨1, 1⟩ (by decide)

/-- Counterexample to C6 as stated: with an empty source sequence and any
brush the paint operation does not return the destination unchanged (it
panics), contradicting "fails locally without error and leaves the
destination sequence unchanged". -/
theorem paint_missing_brush_panics_cex :
    paint [] ⟨0, 0⟩ [] ⟨1, 1⟩ ≠ some [] := by
  decide

namespace GraphicsFile

lemma flatMap_quads_length (f0 pal n : Nat) :
    ((List.range n).flatMap (quadInstances f0 pal)).length = 4 * n := by
  induction n with
  | zero => rfl
  | succ n ih =>
      rw [List.range_succ, List.flatMap_append, List.length_append, ih]
      simp [quadInstances]
      omega

lemma flatMap_quads_getElem (f0 pal n q s : Nat) (hq : q < n) (hs : s < 4) :
    ((List.range n).flatMap (quadInstances f0 pal))[4 * q + s]? =
      (quadInstances f0 pal q)[s]? := by
  induction n with
  | zero => omega
  | succ n ih =>
      rw [List.range_succ, List.flatMap_append]
      rcases Nat.lt_or_ge q n with h | h
      · rw [List.getElem?_append_left (by rw [flatMap_quads_length]; omega)]
        exact ih h
      · have hq' : q = n := by omega
        subst hq'
        rw [List.getElem?_append_right (by rw [flatMap_quads_length]; omega)]
        rw [flatMap_quads_length]
        have hsub : 4 * q + s - 4 * q = s := by omega
        rw [hsub]
        simp

lemma quadInstances_ids (f0 pal q : Nat) (h : f0 + 4 * q + 4 ≤ 2 ^ 32) :
    (quadInstances f0 pal q).map TileInstance.id =
      [f0 + 4 * q, f0 + 4 * q + 1, f0 + 4 * q + 2, f0 + 4 * q + 3] := by
  simp only [quadInstances, List.map_cons, List.map_nil]
  have h1 : (f0 + q * 4) % 2 ^ 32 = f0 + 4 * q := by omega
  rw [h1]
  have h2 : (f0 + 4 * q + 1) % 2 ^ 32 = f0 + 4 * q + 1 := by omega
  have h3 : (f0 + 4 * q + 2) % 2 ^ 32 = f0 + 4 * q + 2 := by omega
  have h4 : (f0 + 4 * q + 3) % 2 ^ 32 = f0 + 4 * q + 3 := by omega
  rw [h2, h3, h4]

lemma flatMap_quads_ids (f0 pal n : Nat) (h : f0 + 4 * n ≤ 2 ^ 32) :
    ((List.range n).flatMap (quadInstances f0 pal)).map TileInstance.id =
      List.range' f0 (4 * n) := by
  induction n with
  | zero => rfl
  | succ n ih =>
      rw [List.range_succ, List.flatMap_append, List.map_append, ih (by omega)]
      have hblock : ([n].flatMap (quadInstances f0 pal)).map TileInstance.id =
          List.range' (f0 + 1 * (4 * n)) 4 := by
        simp only [List.flatMap_cons, List.flatMap_nil, List.append_nil]
        rw [quadInstances_ids f0 pal n (by omega)]
        have hst : f0 + 1 * (4 * n) = f0 + 4 * n := by omega
        rw [hst]
        rfl
      rw [hblock, List.range'_append f0 (4 * n) 4 1]
      have hlen : 4 + 4 * n = 4 * (n + 1) := by omega
      rw [hlen]

end GraphicsFile

/-- C1 (amended with the bounds forced by the source's `as u32` casts:
`offset / 32 + len(bytes) / 32 ≤ 2 ^ 32`, so that the quad count and every
tile id fit in `u32`, and the palette line ranging over the spec's `[0, 16)`):
the layout returns exactly `floor(len / 128) * 4` instances (remainder bytes
are dropped); the instance at index `4 * q + s` sits at
`(q % 8 * 16, q / 8 * 16)` plus the sub-offset `(8 * (s % 2), 8 * (s / 2))`,
carries id `offset / 32 + 4 * q + s`, the given palette line, scale 1 and
flags 0; when `128 ∣ len(bytes)` the ids are exactly the consecutive range
`offset / 32 .. offset / 32 + len / 32`, pairwise distinct; and the function
is pure (equal inputs give equal outputs). -/
theorem layout_all_tile_instances_spec (path : String) (bytes : List Nat)
    (offset pal : Nat) (hpal : pal < 16)
    (hfit : offset / 32 + bytes.length / 32 ≤ 2 ^ 32) :
    ((⟨path, bytes, offset⟩ : GraphicsFile).layout_all_tile_instances_from_file
        pal).length = 4 * (bytes.length / 128) ∧
    (∀ q s : Nat, q < bytes.length / 128 → s < 4 →
      ((⟨path, bytes, offset⟩ : GraphicsFile).layout_all_tile_instances_from_file
          pal)[4 * q + s]? =
        some (TileInstance.mk (q % 8 * 16 + 8 * (s % 2)) (q / 8 * 16 + 8 * (s / 2))
          (offset / 32 + 4 * q + s) pal 1 0)) ∧
    (128 ∣ bytes.length →
      ((⟨path, bytes, offset⟩ : GraphicsFile).layout_all_tile_instances_from_file
          pal).length = bytes.length / 32 ∧
      ((⟨path, bytes, offset⟩ : GraphicsFile).layout_all_tile_instances_from_file
          pal).map TileInstance.id =
        List.range' (offset / 32) (bytes.length / 32) ∧
      (((⟨path, bytes, offset⟩ : GraphicsFile).layout_all_tile_instances_from_file
          pal).map TileInstance.id).Nodup) ∧
    (∀ (bytes2 : List Nat) (offset2 pal2 : Nat),
      bytes = bytes2 → offset = offset2 → pal = pal2 →
      (⟨path, bytes, offset⟩ : GraphicsFile).layout_all_tile_instances_from_file pal =
        (⟨path, bytes2, offset2⟩ : GraphicsFile).layout_all_tile_instances_from_file
          pal2) := by
  have hq4 : 4 * (bytes.length / 128) ≤ bytes.length / 32 := by omega
  have hraw : (⟨path, bytes, offset⟩ : GraphicsFile).layout_all_tile_instances_from_file
      pal = (List.range (bytes.length / 128 % 2 ^ 32)).flatMap
        (GraphicsFile.quadInstances (offset / 32 % 2 ^ 32) (pal % 2 ^ 8)) := rfl
  have hQm : bytes.length / 128 % 2 ^ 32 = bytes.length / 128 := by omega
  have hpm : pal % 2 ^ 8 = pal := by omega
  rcases Nat.eq_zero_or_pos (bytes.length / 128) with hQ | hQ
  · have hnil : (⟨path, bytes, offset⟩ : GraphicsFile).layout_all_tile_instances_from_file
        pal = [] := by
      rw [hraw, hQm, hQ]
      rfl
    refine ⟨by rw [hnil, hQ]; rfl, fun q s hq hs => by omega, fun hdvd => ?_, ?_⟩
    · have hlen : bytes.length = 0 := by omega
      refine ⟨by rw [hnil, hlen]; rfl, by rw [hnil, hlen]; rfl,
        by rw [hnil]; exact List.nodup_nil⟩
    · rintro bytes2 offset2 pal2 rfl rfl rfl
      rfl
  · have hf0 : offset / 32 % 2 ^ 32 = offset / 32 := by omega
    have hlay : (⟨path, bytes, offset⟩ : GraphicsFile).layout_all_tile_instances_from_file
        pal = (List.range (bytes.length / 128)).flatMap
          (GraphicsFile.quadInstances (offset / 32) pal) := by
      rw [hraw, hQm, hf0, hpm]
    refine ⟨?_, fun q s hq hs => ?_, fun hdvd => ?_, ?_⟩
    · rw [hlay, GraphicsFile.flatMap_quads_length]
    · rw [hlay, GraphicsFile.flatMap_quads_getElem _ _ _ q s hq hs]
      interval_cases s <;> simp [GraphicsFile.quadInstances] <;> omega
    · have hlen32 : bytes.length / 32 = 4 * (bytes.length / 128) := by omega
      refine ⟨?_, ?_, ?_⟩
      · rw [hlay, GraphicsFile.flatMap_quads_length, hlen32]
      · rw [hlay, GraphicsFile.flatMap_quads_ids _ _ _ (by omega), hlen32]
      · rw [hlay, GraphicsFile.flatMap_quads_ids _ _ _ (by omega)]
        exact List.nodup_range' _ _ 1 (by norm_num)
    · rintro bytes2 offset2 pal2 rfl rfl rfl
      rfl

lemma layout_eq_flatMap (f : GraphicsFile) (pal : Nat) :
    GraphicsFile.layout_all_tile_instances_from_file f pal =
      (List.range (f.bytes.length / 128 % 2 ^ 32)).flatMap
        (GraphicsFile.quadInstances (f.offset_in_all_bytes / 32 % 2 ^ 32)
          (pal % 2 ^ 8)) := rfl

/-- Witness for `layout_all_tile_instances_spec`: a 256-byte file at offset 64
with palette line 3 yields 8 instances; instance `4 * 1 + 2` is the (0,8)
sub-tile of quad 1 with id `64 / 32 + 4 * 1 + 2 = 8`; the ids run over
`2 .. 10`. -/
theorem layout_all_tile_instances_spec_witness :
    ((⟨"", List.replicate 256 0, 64⟩ : GraphicsFile).layout_all_tile_instances_from_file
        3).length = 8 ∧
    ((⟨"", List.replicate 256 0, 64⟩ : GraphicsFile).layout_all_tile_instances_from_file
        3)[6]? = some (TileInstance.mk 16 8 8 3 1 0) ∧
    ((⟨"", List.replicate 256 0, 64⟩ : GraphicsFile).layout_all_tile_instances_from_file
        3).map TileInstance.id = List.range' 2 8 := by
  have hlen : (List.replicate 256 (0 : Nat)).length = 256 := List.length_replicate _ _
  have h := layout_all_tile_instances_spec "" (List.replicate 256 0) 64 3
    (by norm_num) (by rw [hlen]; norm_num)
  rw [hlen] at h
  exact ⟨h.1, h.2.1 1 2 (by norm_num) (by norm_num),
    (h.2.2.1 (by norm_num)).2.1⟩

set_option maxRecDepth 10000 in
/-- Counterexample to C1 as stated: the source casts the quad count and the
first tile id to `u32`.  A 2^39-byte buffer has `2 ^ 32` quads, which
truncates to 0, so the layout is empty instead of `4 * (2 ^ 39 / 128)` long;
and at byte offset `2 ^ 37` the first tile id `2 ^ 37 / 32 = 2 ^ 32`
truncates to 0, so the ids of a 128-byte file are `[0, 1, 2, 3]` rather than
the claimed consecutive range starting at `offset / 32`. -/
theorem layout_all_tile_instances_spec_cex :
    ((⟨"", List.replicate (2 ^ 39) 0, 0⟩ : GraphicsFile).layout_all_tile_instances_from_file
        0).length ≠ 4 * ((2 ^ 39 : Nat) / 128) ∧
    ((⟨"", List.replicate 128 0, 2 ^ 37⟩ : GraphicsFile).layout_all_tile_instances_from_file
        0).map TileInstance.id ≠
      [(2 ^ 37 : Nat) / 32, (2 ^ 37 : Nat) / 32 + 1, (2 ^ 37 : Nat) / 32 + 2,
        (2 ^ 37 : Nat) / 32 + 3] := by
  constructor
  · rw [layout_eq_flatMap]
    rw [show (⟨"", List.replicate (2 ^ 39) 0, 0⟩ : GraphicsFile).bytes =
      List.replicate (2 ^ 39) 0 from rfl]
    rw [List.length_replicate]
    norm_num
  · rw [layout_eq_flatMap]
    rw [show (⟨"", List.replicate 128 0, 2 ^ 37⟩ : GraphicsFile).bytes =
      List.replicate 128 0 from rfl]
    rw [List.length_replicate]
    norm_num [GraphicsFile.quadInstances]
    decide
